import Mathlib

/-!
# PocketPilot — verification of the sheet-alignment / upsert layer

A shallow embedding of the PocketPilot finance API's spreadsheet layer
(`src/app/services.py`) and the route computations built on it
(`src/app/main.py`), together with proofs of the behavioural properties
stated in the specification.

Modelling conventions:
* A worksheet tab is a list of rows, each row a list of typed cell values;
  row 1 is the header row.  The remote tabular store (the spreadsheet
  service) is an external collaborator; per the spec (§4.3, §4.4) a column
  read returns every row's cell, empty cells reading back as `""`, and a
  record read zips each data row against the header, padding short rows
  with empty strings.
* Python dictionaries that are only ever built and queried by key are
  embedded as functions `String → Option Value`.
* Python floats are embedded as rationals; the arithmetic the claims
  exercise (sums, differences, small ratios) is exact in both models.
* Fallible code returns `Except PyError`; an uncaught Python exception is
  an `.error` value, so "the operation performs no write" is the statement
  that the function returns `.error` and hence no successor tab state.
-/

namespace PocketPilot

/-- JSON-serializable payloads: the shape of the structured (list / dict)
values that `json.dumps` is applied to in `services.py`. -/
inductive Json where
  | jNull : Json
  | jBool (b : Bool) : Json
  | jNum (q : ℚ) : Json
  | jStr (s : String) : Json
  | jArr (elems : List Json) : Json
  | jObj (fields : List (String × Json)) : Json

/-- Escape backslash and double quote, the two characters `json.dumps`
must escape in the strings this application produces. -/
def jsonEscape (s : String) : String :=
  (s.replace "\\" "\\\\").replace "\"" "\\\""

/-- Print a rational the way a JSON number is printed: integers without a
fractional part, other values as numerator/denominator text (stand-in for
decimal notation; never load-bearing in the claims). -/
def ratText (q : ℚ) : String :=
  if q.den = 1 then toString q.num else toString q.num ++ "/" ++ toString q.den

mutual

/-- services.py:59 `json.dumps(v, ensure_ascii=False)` — canonical JSON
text of a structured value, default separators `", "` and `": "`. -/
def Json.dumps : Json → String
  | .jNull => "null"
  | .jBool true => "true"
  | .jBool false => "false"
  | .jNum q => ratText q
  | .jStr s => "\"" ++ jsonEscape s ++ "\""
  | .jArr xs => "[" ++ Json.dumpsElems xs ++ "]"
  | .jObj kvs => "\x7b" ++ Json.dumpsFields kvs ++ "\x7d"

/-- Comma-separated JSON array elements. -/
def Json.dumpsElems : List Json → String
  | [] => ""
  | [x] => Json.dumps x
  | x :: y :: xs => Json.dumps x ++ ", " ++ Json.dumpsElems (y :: xs)

/-- Comma-separated JSON object members. -/
def Json.dumpsFields : List (String × Json) → String
  | [] => ""
  | [(k, v)] => "\"" ++ jsonEscape k ++ "\": " ++ Json.dumps v
  | (k, v) :: y :: xs =>
      "\"" ++ jsonEscape k ++ "\": " ++ Json.dumps v ++ ", " ++ Json.dumpsFields (y :: xs)

end

/-- Python `s.strip()`: drop leading and trailing whitespace.  (Spelled
out over the character list so that concrete instances evaluate.) -/
def pyStrip (s : String) : String :=
  String.mk (((s.data.dropWhile Char.isWhitespace).reverse.dropWhile
    Char.isWhitespace).reverse)

/-- A Python value as it appears in a `row_dict` or a cell: a string, a
number, a boolean, or a structured value (list / dict) that header
alignment serializes to JSON text. -/
inductive Value where
  | vStr (s : String) : Value
  | vNum (q : ℚ) : Value
  | vBool (b : Bool) : Value
  | vList (elems : List Json) : Value
  | vDict (fields : List (String × Json)) : Value

/-- Python `str(v)`: the textual form of a cell value, also the form in
which the remote store reports a cell back to a column read. -/
def pyStr : Value → String
  | .vStr s => s
  | .vNum q => ratText q
  | .vBool b => if b then "True" else "False"
  | .vList xs => (Json.jArr xs).dumps
  | .vDict kvs => (Json.jObj kvs).dumps

/-- Python truthiness of a value (`if name:`, `x or y`). -/
def Value.truthy : Value → Bool
  | .vStr s => s ≠ ""
  | .vNum q => q ≠ 0
  | .vBool b => b
  | .vList xs => !xs.isEmpty
  | .vDict kvs => !kvs.isEmpty

/-- A value is scalar when it is not a Python list or dict, i.e. when
header alignment passes it through unchanged. -/
def Value.isScalar : Value → Bool
  | .vList _ => false
  | .vDict _ => false
  | _ => true

/-- services.py:58-59 — the cell conversion inside both row builders:
`if isinstance(v, (dict, list)): v = json.dumps(v, ensure_ascii=False)`. -/
def serializeCell : Value → Value
  | .vList xs => .vStr (Json.jArr xs).dumps
  | .vDict kvs => .vStr (Json.jObj kvs).dumps
  | v => v

/-- A Python dict of field name → value, embedded by its lookup function
(`row_dict.get`). `none` is an absent key. -/
abbrev FieldMap := String → Option Value

/-- Python `row_dict.get(h, "")` — lookup with empty-string default
(services.py:56, services.py:166). -/
def fmGet (M : FieldMap) (h : String) : Value :=
  (M h).getD (.vStr "")

/-- One loop iteration of the row builders (services.py:54-60 and
services.py:164-169): look the header field up, serialize structured
values. -/
def alignCell (M : FieldMap) (h : String) : Value :=
  serializeCell (fmGet M h)

/-- The header-aligned row built by both `sheets_append_row_by_header`
(services.py:54-60) and `sheets_update_row_by_header`
(services.py:164-169): one cell per header field, in header order. -/
def alignRow (headers : List String) (M : FieldMap) : List Value :=
  headers.map (alignCell M)

/-- A worksheet tab: its rows, row 1 (index 0) being the header row. -/
structure Tab where
  cells : List (List Value)

/-- The exceptions the embedded slice can raise: the two `RuntimeError`s
of services.py:41 and services.py:186, and Python's `ZeroDivisionError`. -/
inductive PyError where
  | noHeaderRow : PyError
  | keyColumnNotFound (key : String) : PyError
  | zeroDivisionError : PyError
deriving DecidableEq, Repr

/-- Model of `ws.row_values(n)` — the cells of row `n` (1-based) in textual form. -/
def Tab.rowValues (t : Tab) (n : Nat) : List String :=
  ((t.cells.get? (n - 1)).getD []).map pyStr

/-- Model of `ws.col_values(c)` — the cells of column `c` (1-based) in textual
form, one entry per row, an absent cell reading back as `""` (spec §4.4:
the full key column is read). -/
def Tab.colValues (t : Tab) (c : Nat) : List String :=
  t.cells.map (fun r => pyStr ((r.get? (c - 1)).getD (.vStr "")))

/-- services.py:36-42 `_sheet_headers` — read row 1 as the header list;
raise when it is empty. -/
def sheet_headers (t : Tab) : Except PyError (List String) :=
  let headers := t.rowValues 1
  if headers.isEmpty then .error .noHeaderRow else .ok headers

/-- services.py:45-62 `sheets_append_row_by_header` — build the
header-aligned row and append it as the new last row. -/
def sheets_append_row_by_header (t : Tab) (row_dict : FieldMap) :
    Except PyError Tab := do
  let headers ← sheet_headers t
  let row := alignRow headers row_dict
  .ok ⟨t.cells ++ [row]⟩

/-- Extend the grid with blank rows so that row `n` exists (the remote
store's grid always has rows available for an in-range `update`). -/
def padRows (cells : List (List Value)) (n : Nat) : List (List Value) :=
  cells ++ List.replicate (n - cells.length) []

/-- services.py:156-173 `sheets_update_row_by_header` — build the
header-aligned row and write it over columns `1..|headers|` of the given
1-based row number (the A1 range `A{n}:{end}{n}` of services.py:171-173);
cells of that row beyond the header width are untouched. -/
def sheets_update_row_by_header (t : Tab) (row_number : Nat)
    (row_dict : FieldMap) : Except PyError Tab := do
  let headers ← sheet_headers t
  let row := alignRow headers row_dict
  let cells := padRows t.cells row_number
  let old := (cells.get? (row_number - 1)).getD []
  .ok ⟨cells.set (row_number - 1) (row ++ old.drop headers.length)⟩

/-- services.py:192-196 — the scan `for i, v in enumerate(col_vals[1:],
start=2): if str(v).strip() == str(key_value).strip(): target_row = i;
break`, as a recursion over the remaining column cells carrying the
current 1-based row number. -/
def scanForKey (vals : List String) (rowNum : Nat) (key_value : String) :
    Option Nat :=
  match vals with
  | [] => none
  | v :: rest =>
      if pyStrip v = pyStrip key_value then some rowNum
      else scanForKey rest (rowNum + 1) key_value

/-- The row number of the first data row whose key cell matches, given
the full key-column read (header cell first). -/
def findTargetRow (col_vals : List String) (key_value : String) : Option Nat :=
  scanForKey (col_vals.drop 1) 2 key_value

/-- The return payload of `sheets_upsert_row_by_key`:
`{"action": "updated", "row": n}` or `{"action": "inserted"}`. -/
structure UpsertResult where
  action : String
  row : Option Nat
deriving DecidableEq, Repr

/-- services.py:176-204 `sheets_upsert_row_by_key` — validate the key
column, scan the key column for a trimmed-equal cell, update the first
matching row in place, else append. -/
def sheets_upsert_row_by_key (t : Tab) (key_column key_value : String)
    (row_dict : FieldMap) : Except PyError (Tab × UpsertResult) := do
  let headers ← sheet_headers t
  if key_column ∈ headers then
    let key_col_idx := headers.indexOf key_column + 1
    let col_vals := t.colValues key_col_idx
    match findTargetRow col_vals key_value with
    | some target_row => do
        let t' ← sheets_update_row_by_header t target_row row_dict
        .ok (t', ⟨"updated", some target_row⟩)
    | none => do
        let t' ← sheets_append_row_by_header t row_dict
        .ok (t', ⟨"inserted", none⟩)
  else
    .error (.keyColumnNotFound key_column)

/-- One record of `get_all_records`: a data row zipped positionally
against the header; a key reads its column's cell, a short row pads with
`""`, cells beyond the header width are ignored (spec §4.3). -/
def recordOfRow (headers : List String) (r : List Value) : FieldMap :=
  fun k =>
    if k ∈ headers then some ((r.get? (headers.indexOf k)).getD (.vStr ""))
    else none

/-- services.py:65-71 `sheets_get_all_records` — every data row (row 2
onward) as a field-name-keyed record, in row order. -/
def sheets_get_all_records (t : Tab) : List FieldMap :=
  (t.cells.drop 1).map (recordOfRow (t.rowValues 1))

/-! ## main.py — route computations built on the sheets layer -/

/-- Python `a / b`: raises `ZeroDivisionError` when the divisor is zero
(also for float division). -/
def pydiv (a b : ℚ) : Except PyError ℚ :=
  if b = 0 then .error .zeroDivisionError else .ok (a / b)

/-- Python `round(x)` to an integer: nearest, ties to even. -/
def roundHalfEven (q : ℚ) : ℤ :=
  let f := ⌊q⌋
  let frac := q - f
  if frac < 1 / 2 then f
  else if 1 / 2 < frac then f + 1
  else if 2 ∣ f then f else f + 1

/-- Python `round(x, 2)`: round to two decimal places, ties to even. -/
def pyround2 (q : ℚ) : ℚ :=
  (roundHalfEven (q * 100) : ℚ) / 100

/-- models.py:107-117 `NetWorthSnapshot` — the net-worth request body. -/
structure NetWorthSnapshot where
  date : String
  cash_bank : ℚ
  fd_total : ℚ
  ppf_balance : ℚ
  equity_value : ℚ
  mf_value : ℚ
  other_assets : ℚ
  liabilities_cc : ℚ
  liabilities_loans : ℚ
  notes : Option String

/-- main.py:185-188 — the net-worth arithmetic: total assets minus total
liabilities. -/
def add_networth_net (req : NetWorthSnapshot) : ℚ :=
  (req.cash_bank + req.fd_total + req.ppf_balance + req.equity_value
      + req.mf_value + req.other_assets)
    - (req.liabilities_cc + req.liabilities_loans)

/-- main.py:190-203 — the row dict written to `NetWorth_Snapshots`. -/
def networth_row (req : NetWorthSnapshot) (net : ℚ) (now : String) : FieldMap :=
  fun k =>
    if k = "date" then some (.vStr req.date)
    else if k = "cash_bank" then some (.vNum req.cash_bank)
    else if k = "fd_total" then some (.vNum req.fd_total)
    else if k = "ppf_balance" then some (.vNum req.ppf_balance)
    else if k = "equity_value" then some (.vNum req.equity_value)
    else if k = "mf_value" then some (.vNum req.mf_value)
    else if k = "other_assets" then some (.vNum req.other_assets)
    else if k = "liabilities_cc" then some (.vNum req.liabilities_cc)
    else if k = "liabilities_loans" then some (.vNum req.liabilities_loans)
    else if k = "net_worth" then some (.vNum net)
    else if k = "notes" then some (.vStr (req.notes.getD ""))
    else if k = "created_at" then some (.vStr now)
    else none

/-- main.py:182-204 `add_networth` — compute net worth, append the
snapshot row, return the computed value. -/
def add_networth (t : Tab) (req : NetWorthSnapshot) (now : String) :
    Except PyError (Tab × ℚ) := do
  let net := add_networth_net req
  let t' ← sheets_append_row_by_header t (networth_row req net now)
  .ok (t', net)

/-- main.py:232-233 — the month-close win-rate computation:
`total = win_count + loss_count;
win_rate = (win_count / total * 100) if total else 0.0`. -/
def close_month_win_rate (win_count loss_count : Nat) : Except PyError ℚ := do
  let total := win_count + loss_count
  if total ≠ 0 then
    let q ← pydiv (win_count : ℚ) (total : ℚ)
    .ok (q * 100)
  else
    .ok 0

/-- models.py:38-42 `BigExpense`. -/
structure BigExpense where
  name : String
  amount : ℚ
  due_month : String
  priority : Int

/-- models.py:45-50 `MonthPlanRequest`. -/
structure MonthPlanRequest where
  month : String
  expected_income_base : ℚ
  expected_income_upside : Option ℚ
  known_big_expenses : List BigExpense
  mode : String

/-- models.py:53-57 `AllocationLine`. -/
structure AllocationLine where
  category : String
  percent : ℚ
  amount : ℚ
  notes : Option String

/-- models.py:60-63 `WeeklyTarget`. -/
structure WeeklyTarget where
  category : String
  weekly_amount : ℚ

/-- The values `create_month_plan` computes before writing and
responding. -/
structure MonthPlanCalc where
  allocations : List AllocationLine
  weekly_targets : List WeeklyTarget
  trading_allowed : Bool
  trading_cap_amount : ℚ

/-- main.py:69-104 `create_month_plan`, the computation slice: the fixed
allocation amounts, the naive goal funding, the percentage lines
`round(amount / income * 100, 2)`, the weekly targets and the trading
cap.  Every division is Python division and raises on a zero divisor. -/
def create_month_plan_calc (req : MonthPlanRequest) :
    Except PyError MonthPlanCalc := do
  let income := req.expected_income_base
  let fixed_bills : ℚ := 20000
  let variable_essentials : ℚ := 30000
  let lifestyle : ℚ := 25000
  let goal_contrib : ℚ := if req.known_big_expenses.isEmpty then 0 else 50000
  let emergency : ℚ := 15000
  let sinking : ℚ := 15000
  let investing :=
    max 0 (income - (fixed_bills + variable_essentials + lifestyle
      + emergency + sinking + goal_contrib))
  let q1 ← pydiv fixed_bills income
  let q2 ← pydiv variable_essentials income
  let q3 ← pydiv lifestyle income
  let q4 ← pydiv emergency income
  let q5 ← pydiv sinking income
  let q6 ← pydiv goal_contrib income
  let q7 ← pydiv investing income
  let allocations : List AllocationLine :=
    [⟨"Fixed bills", pyround2 (q1 * 100), fixed_bills, some "Rent + utilities buffer"⟩,
     ⟨"Variable essentials", pyround2 (q2 * 100), variable_essentials, none⟩,
     ⟨"Lifestyle", pyround2 (q3 * 100), lifestyle, none⟩,
     ⟨"Emergency fund", pyround2 (q4 * 100), emergency, none⟩,
     ⟨"Sinking fund", pyround2 (q5 * 100), sinking, none⟩,
     ⟨"Goal fund", pyround2 (q6 * 100), goal_contrib, some "Deadline goals (e.g., scooty)"⟩,
     ⟨"Investing", pyround2 (q7 * 100), investing, none⟩]
  let weekly : List WeeklyTarget :=
    [⟨"Variable essentials", pyround2 (variable_essentials / 4)⟩,
     ⟨"Lifestyle", pyround2 (lifestyle / 4)⟩]
  let trading_allowed := goal_contrib = 0
  let trading_cap := if ¬trading_allowed then 0 else pyround2 (investing * (5 / 100))
  .ok ⟨allocations, weekly, trading_allowed, trading_cap⟩

/-- models.py:4-10 `SettingsUpdateRequest` — every field optional. -/
structure SettingsUpdateRequest where
  currency : Option String
  fiscal_year_start_month : Option Int
  risk_mode : Option String
  default_allocations_json : Option (List (String × Json))
  ppf_annual_target : Option ℚ
  goal_priorities_json : Option (List (String × Json))

/-- main.py:296 `req.model_dump(exclude_none=True)` — the provided
fields of a settings update, as a dict. -/
def settings_payload (req : SettingsUpdateRequest) : FieldMap :=
  fun k =>
    if k = "currency" then req.currency.map .vStr
    else if k = "fiscal_year_start_month" then
      req.fiscal_year_start_month.map (fun n => .vNum n)
    else if k = "risk_mode" then req.risk_mode.map .vStr
    else if k = "default_allocations_json" then
      req.default_allocations_json.map .vDict
    else if k = "ppf_annual_target" then req.ppf_annual_target.map .vNum
    else if k = "goal_priorities_json" then req.goal_priorities_json.map .vDict
    else none

/-- Python `merged.update(payload)` on dicts seen through their lookup
functions: a provided key wins, anything else falls through. -/
def fmUpdate (base upd : FieldMap) : FieldMap :=
  fun k => match upd k with
    | some v => some v
    | none => base k

/-- Python `d.setdefault(key, v)`: insert `v` only when the key is
absent. -/
def fmSetdefault (d : FieldMap) (key : String) (v : Value) : FieldMap :=
  fun k => if k = key then some ((d key).getD v) else d k

/-- The environment-derived defaults `update_settings` falls back to
(`os.getenv(...)` at main.py:301-304). -/
structure EnvDefaults where
  currency : String
  fiscal_year_start_month : Int
  risk_mode : String
  ppf_annual_target : ℚ

/-- main.py:286-309 `update_settings` — read the singleton settings row
(row 2), merge the provided fields over it, backfill defaults for keys
still missing, and write the merged record to row 2 in place. -/
def update_settings (env : EnvDefaults) (t : Tab)
    (req : SettingsUpdateRequest) : Except PyError (Tab × FieldMap) := do
  let rows := sheets_get_all_records t
  let existing : FieldMap := (rows.head?).getD (fun _ => none)
  let merged := fmUpdate existing (settings_payload req)
  let merged := fmSetdefault merged "currency" (.vStr env.currency)
  let merged := fmSetdefault merged "fiscal_year_start_month"
    (.vNum env.fiscal_year_start_month)
  let merged := fmSetdefault merged "risk_mode" (.vStr env.risk_mode)
  let merged := fmSetdefault merged "ppf_annual_target" (.vNum env.ppf_annual_target)
  let merged := fmSetdefault merged "default_allocations_json" (.vDict [])
  let merged := fmSetdefault merged "goal_priorities_json" (.vDict [])
  let t' ← sheets_update_row_by_header t 2 merged
  .ok (t', merged)

/-- models.py:13-21 `GoalItem`. -/
structure GoalItem where
  goal_name : String
  target_amount : ℚ
  target_date : String
  priority : Int
  current_saved : ℚ
  monthly_required : Option ℚ
  status : String
  notes : Option String

/-- main.py:324 — `str(r.get("goal_name", "")).strip()`, the trimmed
name under which an existing goals row is keyed. -/
def goalRowName (r : FieldMap) : String :=
  pyStrip (pyStr (fmGet r "goal_name"))

/-- main.py:326 — `r.get("created_at", "") or ""`: the row's creation
timestamp, any falsy value collapsed to the empty string. -/
def goalRowCreated (r : FieldMap) : Value :=
  let v := fmGet r "created_at"
  if v.truthy then v else .vStr ""

/-- One iteration of the dict build at main.py:323-326: record the row
under its trimmed name when that name is non-empty, a later row
overriding an earlier one. -/
def goalsStep (acc : String → Option Value) (r : FieldMap) :
    String → Option Value :=
  let name := goalRowName r
  if name ≠ "" then (fun k => if k = name then some (goalRowCreated r) else acc k)
  else acc

/-- main.py:322-326 — `existing_created_at`: trimmed goal name →
creation timestamp, built by a forward scan of the existing rows. -/
def goalsCreatedAtMap (rows : List FieldMap) : String → Option Value :=
  rows.foldl goalsStep (fun _ => none)

/-- main.py:330-344 — the row dict written for one goal item; its
`created_at` is the recorded timestamp looked up under the item's
verbatim `goal_name`, falling back to `now` when absent or empty. -/
def goal_row_dict (existing_created_at : String → Option Value)
    (g : GoalItem) (now : String) : FieldMap :=
  let created_at : Value :=
    let v := (existing_created_at g.goal_name).getD (.vStr "")
    if v.truthy then v else .vStr now
  let monthly_required : Value :=
    match g.monthly_required with
    | some q => .vNum q
    | none => .vStr ""
  fun k =>
    if k = "goal_name" then some (.vStr g.goal_name)
    else if k = "target_amount" then some (.vNum g.target_amount)
    else if k = "target_date" then some (.vStr g.target_date)
    else if k = "priority" then some (.vNum g.priority)
    else if k = "current_saved" then some (.vNum g.current_saved)
    else if k = "monthly_required" then some monthly_required
    else if k = "status" then some (.vStr g.status)
    else if k = "notes" then some (.vStr (g.notes.getD ""))
    else if k = "created_at" then some created_at
    else if k = "updated_at" then some (.vStr now)
    else none

/-- main.py:317-349 `upsert_goals` — read the existing rows once, build
the creation-timestamp dict, then upsert one row per item against the
live tab, keyed by `goal_name`. -/
def upsert_goals (t : Tab) (items : List GoalItem) (now : String) :
    Except PyError (Tab × List UpsertResult) := do
  let existing_rows := sheets_get_all_records t
  let ecmap := goalsCreatedAtMap existing_rows
  items.foldlM
    (fun (st : Tab × List UpsertResult) g => do
      let (t', r) ← sheets_upsert_row_by_key st.1 "goal_name" g.goal_name
        (goal_row_dict ecmap g now)
      pure (t', st.2 ++ [r]))
    (t, [])

/-! ## Spec-side predicates -/

/-- The key cell of a row at 0-based column index `i`, as the column read
reports it (an absent cell reads back as `""`). -/
def keyCellText (r : List Value) (i : Nat) : String :=
  pyStr ((r.get? i).getD (.vStr ""))

/-- A data row matches the upsert key when the trimmed textual form of
its key cell equals the trimmed key value (case-sensitive), the
comparison of services.py:194. -/
def rowMatchesKey (hs : List String) (key_column key_value : String)
    (r : List Value) : Prop :=
  pyStrip (keyCellText r (hs.indexOf key_column)) = pyStrip key_value

instance (hs : List String) (kc kv : String) (r : List Value) :
    Decidable (rowMatchesKey hs kc kv r) := by
  unfold rowMatchesKey; infer_instance

/-! ## Concrete instances for witnesses and counterexamples -/

def alignHw : List String := ["a", "b"]

def alignMw : FieldMap :=
  fun k => if k = "a" then some (.vNum 1)
    else if k = "c" then some (.vStr "x") else none

def reqZeroIncome : MonthPlanRequest := ⟨"2025-01", 0, none, [], "balanced"⟩

def reqOkIncome : MonthPlanRequest := ⟨"2025-01", 100000, none, [], "balanced"⟩

def nwTabW : Tab := ⟨[[.vStr "date", .vStr "net_worth", .vStr "created_at"]]⟩

def nwReqW : NetWorthSnapshot := ⟨"2025-01-31", 10000, 5000, 2000, 0, 0, 0, 1000, 0, none⟩

def upsertTabW : Tab :=
  ⟨[[.vStr "k", .vStr "v"], [.vStr "a", .vStr "1"], [.vStr "b", .vStr "2"]]⟩

def upsertMW : FieldMap :=
  fun k => if k = "k" then some (.vStr "b")
    else if k = "v" then some (.vNum 9) else none

def dupTabW : Tab :=
  ⟨[[.vStr "k", .vStr "v"], [.vStr "x", .vStr "1"], [.vStr "x", .vStr "2"]]⟩

def settingsTabW : Tab :=
  ⟨[[.vStr "currency", .vStr "risk_mode"], [.vStr "INR", .vStr "balanced"]]⟩

def settingsEnvW : EnvDefaults := ⟨"INR", 4, "balanced", 150000⟩

def settingsReqW : SettingsUpdateRequest := ⟨none, none, some "aggressive", none, none, none⟩

def goalsHeader : List String :=
  ["goal_name", "target_amount", "target_date", "priority", "current_saved",
   "monthly_required", "status", "notes", "created_at", "updated_at"]

def goalsRowCex : List Value :=
  [.vStr "X", .vNum 100000, .vStr "2026-12", .vNum 1, .vNum 0, .vStr "",
   .vStr "active", .vStr "", .vStr "2020-01-01T00:00:00Z", .vStr "2020-01-01T00:00:00Z"]

def goalsTabCex : Tab := ⟨[goalsHeader.map .vStr, goalsRowCex]⟩

def goalItemCex : GoalItem := ⟨" X ", 100000, "2026-12", 1, 0, none, "active", none⟩

def goalRecW : FieldMap :=
  fun k => if k = "goal_name" then some (.vStr "Scooty")
    else if k = "created_at" then some (.vStr "2024-06-01T00:00:00Z") else none

def goalItemW : GoalItem := ⟨"Scooty", 90000, "2026-06", 1, 10000, none, "active", none⟩

/-! ## General lemmas about the sheets layer -/

theorem except_bind_ok {ε α β : Type _} (a : α) (f : α → Except ε β) :
    (Except.ok a >>= f : Except ε β) = f a := rfl

theorem get?_some_lt {α : Type _} {l : List α} {n : Nat} {a : α}
    (h : l.get? n = some a) : n < l.length := by
  by_contra hn
  push_neg at hn
  rw [List.get?_eq_none.mpr hn] at h
  cases h

theorem alignRow_length (hs : List String) (M : FieldMap) :
    (alignRow hs M).length = hs.length :=
  List.length_map hs (alignCell M)

theorem alignRow_get? (hs : List String) (M : FieldMap) (i : Nat)
    (hi : i < hs.length) :
    (alignRow hs M).get? i = some (alignCell M (hs.get ⟨i, hi⟩)) := by
  rw [alignRow, List.get?_map, List.get?_eq_get hi, Option.map_some']

theorem sheet_headers_ok (t : Tab) (hs : List String)
    (hh : sheet_headers t = .ok hs) : hs = t.rowValues 1 ∧ hs ≠ [] := by
  unfold sheet_headers at hh
  by_cases h : (t.rowValues 1).isEmpty
  · simp [h] at hh
  · simp [h] at hh
    refine ⟨hh.symm, ?_⟩
    subst hh
    simpa [List.isEmpty_iff] using h

theorem serializeCell_scalar (v : Value) (h : v.isScalar = true) :
    serializeCell v = v := by
  cases v <;> simp [serializeCell, Value.isScalar] at h ⊢

theorem scanForKey_eq_none (vals : List String) (key_value : String) (n : Nat)
    (h : ∀ i s, vals.get? i = some s → pyStrip s ≠ pyStrip key_value) :
    scanForKey vals n key_value = none := by
  induction vals generalizing n with
  | nil => rfl
  | cons v rest ih =>
      have hv : pyStrip v ≠ pyStrip key_value := h 0 v rfl
      rw [scanForKey, if_neg hv]
      exact ih (n + 1) (fun i s hi => h (i + 1) s (by simpa using hi))

theorem scanForKey_eq_some_first (vals : List String) (key_value : String)
    (n i : Nat) (s : String) (hi : vals.get? i = some s)
    (hm : pyStrip s = pyStrip key_value)
    (hfirst : ∀ j u, j < i → vals.get? j = some u →
      pyStrip u ≠ pyStrip key_value) :
    scanForKey vals n key_value = some (n + i) := by
  induction vals generalizing n i with
  | nil => simp at hi
  | cons v rest ih =>
      cases i with
      | zero =>
          simp only [List.get?] at hi
          injection hi with hv
          subst hv
          rw [scanForKey, if_pos hm, Nat.add_zero]
      | succ i' =>
          have hv : pyStrip v ≠ pyStrip key_value := hfirst 0 v (Nat.succ_pos _) rfl
          rw [scanForKey, if_neg hv]
          have := ih (n + 1) i' (by simpa using hi)
            (fun j u hj hu => hfirst (j + 1) u (by omega) (by simpa using hu))
          rw [this]
          congr 1
          omega

/-- The entries of a column read, row by row: entry `j` is row `j`'s cell
in that column, rendered textually. -/
theorem colValues_get? (t : Tab) (c j : Nat) :
    (t.colValues c).get? j =
      (t.cells.get? j).map (fun r => pyStr ((r.get? (c - 1)).getD (.vStr ""))) := by
  rw [Tab.colValues, List.get?_map]

/-- Applying `fmSetdefault` never disturbs a key that is already present. -/
theorem fmSetdefault_present (d : FieldMap) (key : String) (v : Value)
    (k : String) (h : (d k).isSome) : fmSetdefault d key v k = d k := by
  unfold fmSetdefault
  by_cases hk : k = key
  · subst hk
    obtain ⟨w, hw⟩ := Option.isSome_iff_exists.mp h
    simp [hw]
  · simp [hk]

/-! ## C1 — header alignment -/

/-- C1: for every header `H` and field mapping `M`, the header-aligned
row construction (shared by append and update-row) yields exactly `|H|`
cells in header order; the cell at a field's position is `M`'s value for
that field when present (serialized when the value is a list or dict) and
the empty string otherwise; keys of `M` outside `H` have no effect on the
output row. -/
theorem align_row_by_header_spec (H : List String) (M : FieldMap) :
    (alignRow H M).length = H.length ∧
    (∀ i (hi : i < H.length),
      (alignRow H M).get? i =
        some (match M (H.get ⟨i, hi⟩) with
              | some v => serializeCell v
              | none => .vStr "")) ∧
    alignRow H (fun k => if k ∈ H then M k else none) = alignRow H M := by
  refine ⟨alignRow_length H M, ?_, ?_⟩
  · intro i hi
    rw [alignRow_get? H M i hi]
    cases hv : M (H.get ⟨i, hi⟩) <;>
      simp only [hv, alignCell, fmGet, Option.getD_some, Option.getD_none] <;> rfl
  · apply List.map_eq_map_iff.mpr
    intro h hmem
    simp [alignCell, fmGet, hmem]

theorem align_row_by_header_spec_witness :
    (alignRow alignHw alignMw).length = 2 ∧
    (alignRow alignHw alignMw).get? 0 = some (.vNum 1) ∧
    (alignRow alignHw alignMw).get? 1 = some (.vStr "") := by
  obtain ⟨h1, h2, -⟩ := align_row_by_header_spec alignHw alignMw
  exact ⟨h1, (h2 0 (by norm_num [alignHw])).trans rfl,
    (h2 1 (by norm_num [alignHw])).trans rfl⟩

/-! ## C5 — month-close win rate -/

/-- C5: the month-close win-rate computation is total: it never raises a
division-by-zero error, returning `win / (win + loss) * 100` when the
total is non-zero and `0.0` when both counts are zero. -/
theorem close_month_win_rate_spec (win_count loss_count : Nat) :
    ∃ r, close_month_win_rate win_count loss_count = .ok r ∧
      (win_count + loss_count ≠ 0 →
        r = (win_count : ℚ) / ((win_count : ℚ) + (loss_count : ℚ)) * 100) ∧
      (win_count = 0 ∧ loss_count = 0 → r = 0) := by
  by_cases h : win_count + loss_count = 0
  · refine ⟨0, ?_, fun hc => absurd h hc, fun _ => rfl⟩
    simp [close_month_win_rate, h]
  · refine ⟨(win_count : ℚ) / ((win_count : ℚ) + (loss_count : ℚ)) * 100,
      ?_, fun _ => rfl, ?_⟩
    · have hq : ((win_count + loss_count : Nat) : ℚ) ≠ 0 := by
        exact_mod_cast h
      unfold close_month_win_rate pydiv
      rw [if_pos h, if_neg hq]
      show Except.ok ((win_count : ℚ) / ((win_count + loss_count : Nat) : ℚ) * 100) = _
      norm_num [Nat.cast_add]
    · rintro ⟨h1, h2⟩
      subst h1; subst h2
      simp at h

theorem close_month_win_rate_spec_witness :
    close_month_win_rate 3 1 = .ok 75 ∧ close_month_win_rate 0 0 = .ok 0 := by
  obtain ⟨r, hok, hnz, -⟩ := close_month_win_rate_spec 3 1
  obtain ⟨r0, hok0, -, hz⟩ := close_month_win_rate_spec 0 0
  have hr : r = 75 := by rw [hnz (by norm_num)]; norm_num
  have hr0 : r0 = 0 := hz ⟨rfl, rfl⟩
  exact ⟨hr ▸ hok, hr0 ▸ hok0⟩

/-! ## C7 — header read failure -/

/-- C7: the headers operation fails with the no-header error exactly when
the tab's row 1 has no cells, and otherwise returns row 1's field names
in order. -/
theorem sheet_headers_empty_spec (t : Tab) :
    (sheet_headers t = .error .noHeaderRow ↔ (t.cells.get? 0).getD [] = []) ∧
    ((t.cells.get? 0).getD [] ≠ [] →
      sheet_headers t = .ok (((t.cells.get? 0).getD []).map pyStr)) := by
  have hrow : t.rowValues 1 = ((t.cells.get? 0).getD []).map pyStr := rfl
  constructor
  · unfold sheet_headers
    rw [hrow]
    by_cases h : ((t.cells.get? 0).getD []) = [] <;>
      simp [h, List.isEmpty_iff, List.map_eq_nil_iff]
  · intro h
    unfold sheet_headers
    rw [hrow, if_neg (by simpa [List.isEmpty_iff, List.map_eq_nil_iff] using h)]

theorem sheet_headers_empty_spec_witness :
    sheet_headers ⟨[]⟩ = .error .noHeaderRow ∧
    sheet_headers ⟨[[.vStr "month", .vStr "notes"]]⟩ = .ok ["month", "notes"] := by
  refine ⟨(sheet_headers_empty_spec ⟨[]⟩).1.mpr rfl, ?_⟩
  exact ((sheet_headers_empty_spec ⟨[[.vStr "month", .vStr "notes"]]⟩).2
    (by simp)).trans rfl

/-! ## C9 — month-plan percentages and the unguarded divisor -/

/-- C9: every allocation percentage of the month plan is
`round(amount / expected_income_base * 100, 2)` with no guard on the
divisor: the computation succeeds exactly when `expected_income_base` is
non-zero, and raises a division-by-zero error at zero income. -/
theorem create_month_plan_calc_spec (req : MonthPlanRequest) :
    (req.expected_income_base = 0 →
      create_month_plan_calc req = .error .zeroDivisionError) ∧
    (req.expected_income_base ≠ 0 →
      (∃ res, create_month_plan_calc req = .ok res) ∧
      ∀ res, create_month_plan_calc req = .ok res →
        res.allocations.length = 7 ∧
        ∀ a ∈ res.allocations,
          a.percent = pyround2 (a.amount / req.expected_income_base * 100)) := by
  constructor
  · intro h
    simp only [create_month_plan_calc, pydiv, if_pos h]
    rfl
  · intro h
    constructor
    · simp only [create_month_plan_calc, pydiv, if_neg h]
      exact ⟨_, rfl⟩
    · intro res hres
      simp only [create_month_plan_calc, pydiv, if_neg h] at hres
      injection hres with hres
      subst hres
      refine ⟨rfl, ?_⟩
      intro a ha
      simp only [List.mem_cons, List.not_mem_nil, or_false] at ha
      rcases ha with rfl | rfl | rfl | rfl | rfl | rfl | rfl <;> rfl

theorem create_month_plan_calc_spec_witness :
    create_month_plan_calc reqZeroIncome = .error .zeroDivisionError ∧
    ∃ res, create_month_plan_calc reqOkIncome = .ok res ∧
      res.allocations.length = 7 := by
  obtain ⟨⟨res, h1⟩, h2⟩ :=
    (create_month_plan_calc_spec reqOkIncome).2 (by norm_num [reqOkIncome])
  exact ⟨(create_month_plan_calc_spec reqZeroIncome).1 rfl, res, h1, (h2 res h1).1⟩

/-! ## C4 — net-worth snapshot -/

/-- C4: the net-worth snapshot computes net worth as total assets minus
total liabilities; the computed value is returned together with the
appended row, the appended row is the header-aligned snapshot row, every
`net_worth` header position of that row carries the computed value, and
the arithmetic at the claim's concrete inputs yields 16000. -/
theorem add_networth_spec (t : Tab) (req : NetWorthSnapshot) (now : String)
    (hs : List String) (hh : sheet_headers t = .ok hs) :
    add_networth t req now =
      .ok (⟨t.cells ++ [alignRow hs (networth_row req (add_networth_net req) now)]⟩,
        add_networth_net req) ∧
    add_networth_net req =
      (req.cash_bank + req.fd_total + req.ppf_balance + req.equity_value
          + req.mf_value + req.other_assets)
        - (req.liabilities_cc + req.liabilities_loans) ∧
    (∀ i (hi : i < hs.length), hs.get ⟨i, hi⟩ = "net_worth" →
      (alignRow hs (networth_row req (add_networth_net req) now)).get? i =
        some (.vNum (add_networth_net req))) ∧
    add_networth_net ⟨"2025-01-31", 10000, 5000, 2000, 0, 0, 0, 1000, 0, none⟩ = 16000 := by
  refine ⟨?_, rfl, ?_, by norm_num [add_networth_net]⟩
  · simp only [add_networth, sheets_append_row_by_header, hh, except_bind_ok]
  · intro i hi hnet
    rw [alignRow_get? hs _ i hi, hnet]
    rfl

theorem add_networth_spec_witness :
    add_networth nwTabW nwReqW "T" =
      .ok (⟨nwTabW.cells ++ [alignRow ["date", "net_worth", "created_at"]
        (networth_row nwReqW 16000 "T")]⟩, 16000) ∧
    (alignRow ["date", "net_worth", "created_at"]
      (networth_row nwReqW 16000 "T")).get? 1 = some (.vNum 16000) := by
  obtain ⟨h1, -, h3, -⟩ := add_networth_spec nwTabW nwReqW "T"
    ["date", "net_worth", "created_at"] rfl
  have hnet : add_networth_net nwReqW = 16000 := by
    norm_num [add_networth_net, nwReqW]
  rw [← hnet]
  exact ⟨h1, h3 1 (by norm_num) rfl⟩

/-! ## C6 — upsert key-column validation -/

/-- C6: the upsert fails with the key-not-in-header error (and hence
performs no write: no successor tab state is produced) exactly on tabs
whose header does not contain the key field; when the key field is in
the header, it always returns a result. -/
theorem upsert_key_validation_spec (t : Tab) (key_column key_value : String)
    (M : FieldMap) (hs : List String) (hh : sheet_headers t = .ok hs) :
    (key_column ∉ hs →
      sheets_upsert_row_by_key t key_column key_value M =
        .error (.keyColumnNotFound key_column)) ∧
    (key_column ∈ hs →
      ∃ t' r, sheets_upsert_row_by_key t key_column key_value M = .ok (t', r)) := by
  constructor
  · intro hk
    simp only [sheets_upsert_row_by_key, hh, except_bind_ok]
    rw [if_neg hk]
  · intro hk
    simp only [sheets_upsert_row_by_key, hh, except_bind_ok]
    rw [if_pos hk]
    cases hfind : findTargetRow (t.colValues (hs.indexOf key_column + 1)) key_value with
    | none =>
        simp only [sheets_append_row_by_header, hh, except_bind_ok]
        exact ⟨_, _, rfl⟩
    | some n =>
        simp only [sheets_update_row_by_header, hh, except_bind_ok]
        exact ⟨_, _, rfl⟩

theorem upsert_key_validation_spec_witness :
    sheets_upsert_row_by_key upsertTabW "zzz" "a" upsertMW =
      .error (.keyColumnNotFound "zzz") ∧
    ∃ t' r, sheets_upsert_row_by_key upsertTabW "k" "a" upsertMW = .ok (t', r) := by
  obtain ⟨h1, -⟩ := upsert_key_validation_spec upsertTabW "zzz" "a" upsertMW
    ["k", "v"] rfl
  obtain ⟨-, h2⟩ := upsert_key_validation_spec upsertTabW "k" "a" upsertMW
    ["k", "v"] rfl
  exact ⟨h1 (by decide), h2 (by decide)⟩

/-! ## C2 / C3 — keyed upsert behaviour -/

/-- Data entries of a column read: entry `j` of the column with the
header cell dropped is data row `j`'s cell in that column. -/
theorem colValues_drop_get? (t : Tab) (c j : Nat) :
    ((t.colValues c).drop 1).get? j =
      ((t.cells.drop 1).get? j).map (fun r => keyCellText r (c - 1)) := by
  rw [List.get?_drop, colValues_get?, List.get?_drop]
  rfl

/-- When no data row's key cell matches, the scan finds nothing and the
upsert appends the header-aligned row. -/
theorem upsert_no_match (t : Tab) (kc kv : String) (M : FieldMap)
    (hs : List String) (hh : sheet_headers t = .ok hs) (hk : kc ∈ hs)
    (hnone : ∀ r ∈ t.cells.drop 1, ¬ rowMatchesKey hs kc kv r) :
    sheets_upsert_row_by_key t kc kv M =
      .ok (⟨t.cells ++ [alignRow hs M]⟩, ⟨"inserted", none⟩) := by
  have hfind : findTargetRow (t.colValues (hs.indexOf kc + 1)) kv = none := by
    unfold findTargetRow
    apply scanForKey_eq_none
    intro i s hi
    rw [colValues_drop_get?] at hi
    cases hr : (t.cells.drop 1).get? i with
    | none => rw [hr] at hi; cases hi
    | some r =>
        rw [hr, Option.map_some'] at hi
        injection hi with hi
        subst hi
        have := hnone r (List.get?_mem hr)
        simpa [rowMatchesKey, Nat.add_sub_cancel] using this
  simp only [sheets_upsert_row_by_key, hh, except_bind_ok]
  rw [if_pos hk, hfind]
  simp only [sheets_append_row_by_header, hh, except_bind_ok]

/-- When data row `i` (row number `i + 2`) is the first match, the scan
finds it and the upsert overwrites exactly that row with the
header-aligned row. -/
theorem upsert_first_match (t : Tab) (kc kv : String) (M : FieldMap)
    (hs : List String) (hh : sheet_headers t = .ok hs) (hk : kc ∈ hs)
    (i : Nat) (r : List Value)
    (hi : (t.cells.drop 1).get? i = some r)
    (hm : rowMatchesKey hs kc kv r)
    (hfirst : ∀ j r', j < i → (t.cells.drop 1).get? j = some r' →
      ¬ rowMatchesKey hs kc kv r') :
    sheets_upsert_row_by_key t kc kv M =
      .ok (⟨t.cells.set (i + 1) (alignRow hs M ++ r.drop hs.length)⟩,
        ⟨"updated", some (i + 2)⟩) := by
  have hfind : findTargetRow (t.colValues (hs.indexOf kc + 1)) kv = some (i + 2) := by
    unfold findTargetRow
    rw [show i + 2 = 2 + i by omega]
    apply scanForKey_eq_some_first _ _ _ i (keyCellText r (hs.indexOf kc))
    · rw [colValues_drop_get?, hi, Option.map_some', Nat.add_sub_cancel]
    · exact hm
    · intro j u hj hu
      rw [colValues_drop_get?] at hu
      cases hr' : (t.cells.drop 1).get? j with
      | none => rw [hr'] at hu; cases hu
      | some r' =>
          rw [hr', Option.map_some'] at hu
          injection hu with hu
          subst hu
          have := hfirst j r' hj hr'
          simpa [rowMatchesKey, Nat.add_sub_cancel] using this
  have hci : t.cells.get? (1 + i) = some r := by
    rw [← List.get?_drop]; exact hi
  have hlen : i + 1 < t.cells.length := by
    have := get?_some_lt hci
    omega
  have hpad : padRows t.cells (i + 2) = t.cells := by
    unfold padRows
    rw [show i + 2 - t.cells.length = 0 by omega]
    simp
  simp only [sheets_upsert_row_by_key, hh, except_bind_ok]
  rw [if_pos hk, hfind]
  simp only [sheets_update_row_by_header, hh, except_bind_ok, hpad]
  rw [show i + 2 - 1 = 1 + i by omega, hci]
  rw [show (1 : Nat) + i = i + 1 by omega]
  rfl

/-- C2: with a valid key column, upsert either appends exactly one
header-aligned row and reports `inserted` with no row position (when no
data row's key cell matches), or overwrites the first matching data row
in place with the header-aligned row, reports `updated` with that row's
1-based position, and leaves the total row count unchanged. -/
theorem upsert_insert_or_update_spec (t : Tab) (kc kv : String) (M : FieldMap)
    (hs : List String) (hh : sheet_headers t = .ok hs) (hk : kc ∈ hs) :
    ((∀ r ∈ t.cells.drop 1, ¬ rowMatchesKey hs kc kv r) →
      sheets_upsert_row_by_key t kc kv M =
        .ok (⟨t.cells ++ [alignRow hs M]⟩, ⟨"inserted", none⟩)) ∧
    (∀ i r, (t.cells.drop 1).get? i = some r → rowMatchesKey hs kc kv r →
      (∀ j r', j < i → (t.cells.drop 1).get? j = some r' →
        ¬ rowMatchesKey hs kc kv r') →
      sheets_upsert_row_by_key t kc kv M =
        .ok (⟨t.cells.set (i + 1) (alignRow hs M ++ r.drop hs.length)⟩,
          ⟨"updated", some (i + 2)⟩) ∧
      (t.cells.set (i + 1) (alignRow hs M ++ r.drop hs.length)).length =
        t.cells.length) := by
  refine ⟨upsert_no_match t kc kv M hs hh hk, ?_⟩
  intro i r hi hm hfirst
  exact ⟨upsert_first_match t kc kv M hs hh hk i r hi hm hfirst,
    List.length_set t.cells _ _⟩

theorem upsert_insert_or_update_spec_witness :
    sheets_upsert_row_by_key upsertTabW "k" "zz" upsertMW =
      .ok (⟨upsertTabW.cells ++ [alignRow ["k", "v"] upsertMW]⟩,
        ⟨"inserted", none⟩) ∧
    sheets_upsert_row_by_key upsertTabW "k" " b " upsertMW =
      .ok (⟨upsertTabW.cells.set 2
          (alignRow ["k", "v"] upsertMW ++ [Value.vStr "b", Value.vStr "2"].drop 2)⟩,
        ⟨"updated", some 3⟩) := by
  constructor
  · exact (upsert_insert_or_update_spec upsertTabW "k" "zz" upsertMW
      ["k", "v"] rfl (by decide)).1 (by decide)
  · refine ((upsert_insert_or_update_spec upsertTabW "k" " b " upsertMW
      ["k", "v"] rfl (by decide)).2 1 [Value.vStr "b", Value.vStr "2"] rfl
      (by decide) ?_).1
    intro j r' hj hr'
    have hj0 : j = 0 := by omega
    subst hj0
    injection hr' with hr'
    subst hr'
    decide

/-- C3: when several data rows match the key, the upsert updates only
the first (lowest-numbered) matching row; every other row, in particular
every higher-numbered matching duplicate, is left untouched. -/
theorem upsert_duplicate_first_wins_spec (t : Tab) (kc kv : String)
    (M : FieldMap) (hs : List String) (hh : sheet_headers t = .ok hs)
    (hk : kc ∈ hs) (i j : Nat) (r r' : List Value)
    (hi : (t.cells.drop 1).get? i = some r)
    (hm : rowMatchesKey hs kc kv r)
    (hfirst : ∀ l r'', l < i → (t.cells.drop 1).get? l = some r'' →
      ¬ rowMatchesKey hs kc kv r'')
    (hj : (t.cells.drop 1).get? j = some r')
    (hmj : rowMatchesKey hs kc kv r')
    (hij : i < j) :
    sheets_upsert_row_by_key t kc kv M =
      .ok (⟨t.cells.set (i + 1) (alignRow hs M ++ r.drop hs.length)⟩,
        ⟨"updated", some (i + 2)⟩) ∧
    (t.cells.set (i + 1) (alignRow hs M ++ r.drop hs.length)).get? (j + 1) =
      some r' := by
  refine ⟨upsert_first_match t kc kv M hs hh hk i r hi hm hfirst, ?_⟩
  have hcj : t.cells.get? (1 + j) = some r' := by
    rw [← List.get?_drop]; exact hj
  rw [List.get?_set_ne _ _ (by omega : i + 1 ≠ j + 1),
    show j + 1 = 1 + j by omega]
  exact hcj

theorem upsert_duplicate_first_wins_spec_witness :
    sheets_upsert_row_by_key dupTabW "k" "x" upsertMW =
      .ok (⟨dupTabW.cells.set 1
          (alignRow ["k", "v"] upsertMW ++ [Value.vStr "x", Value.vStr "1"].drop 2)⟩,
        ⟨"updated", some 2⟩) ∧
    (dupTabW.cells.set 1
        (alignRow ["k", "v"] upsertMW ++ [Value.vStr "x", Value.vStr "1"].drop 2)).get? 2 =
      some [Value.vStr "x", Value.vStr "2"] := by
  refine upsert_duplicate_first_wins_spec dupTabW "k" "x" upsertMW
    ["k", "v"] rfl (by decide) 0 1 [Value.vStr "x", Value.vStr "1"]
    [Value.vStr "x", Value.vStr "2"] rfl (by decide) ?_ rfl (by decide)
    (by omega)
  intro l r'' hl hr''
  omega

/-! ## C8 — settings singleton write -/

/-- The first record of a tab read is row 2 zipped against the header. -/
theorem records_head (t : Tab) (hs : List String) (row2 : List Value)
    (hh : sheet_headers t = .ok hs) (h2 : t.cells.get? 1 = some row2) :
    (sheets_get_all_records t).head? = some (recordOfRow hs row2) := by
  obtain ⟨hhs, -⟩ := sheet_headers_ok t hs hh
  unfold sheets_get_all_records
  rw [← hhs, List.head?_map, ← List.get?_zero, List.get?_drop]
  rw [show (1 : Nat) + 0 = 1 by omega, h2, Option.map_some']

/-- Applying `fmSetdefault` keeps the recorded value of a key that is present. -/
theorem fmSetdefault_keeps (d : FieldMap) (key : String) (v w : Value)
    (k : String) (h : d k = some w) : fmSetdefault d key v k = some w := by
  rw [fmSetdefault_present d key v k (by rw [h]; rfl), h]

/-- C8: a settings update always writes row 2 in place — the row count
and every other row are unchanged — and every header field the request
leaves unset keeps the cell value already present in row 2.  Hypotheses:
the tab has a header and a physical row 2 at least as wide, whose cells
are scalars (stored cells are never Python lists / dicts). -/
theorem update_settings_spec (env : EnvDefaults) (t : Tab)
    (req : SettingsUpdateRequest) (hs : List String) (row2 : List Value)
    (hh : sheet_headers t = .ok hs) (h2 : t.cells.get? 1 = some row2)
    (hlen : hs.length ≤ row2.length)
    (hscal : ∀ c ∈ row2, c.isScalar = true) :
    (∃ p, update_settings env t req = .ok p) ∧
    ∀ t' m, update_settings env t req = .ok (t', m) →
      t'.cells.length = t.cells.length ∧
      (∀ j, j ≠ 1 → t'.cells.get? j = t.cells.get? j) ∧
      t'.cells.get? 1 = some (alignRow hs m ++ row2.drop hs.length) ∧
      (∀ f ∈ hs, settings_payload req f = none →
        (alignRow hs m).get? (hs.indexOf f) = row2.get? (hs.indexOf f)) := by
  have hex : (sheets_get_all_records t).head? = some (recordOfRow hs row2) :=
    records_head t hs row2 hh h2
  have h1len : 1 < t.cells.length := get?_some_lt h2
  have hpad : padRows t.cells 2 = t.cells := by
    unfold padRows
    rw [show 2 - t.cells.length = 0 by omega]
    simp
  constructor
  · simp only [update_settings, sheets_update_row_by_header, hh, hex,
      except_bind_ok, Option.getD_some, hpad]
    exact ⟨_, rfl⟩
  · intro t' m heq
    simp only [update_settings, sheets_update_row_by_header, hh, hex,
      except_bind_ok, Option.getD_some, hpad,
      show (2 : Nat) - 1 = 1 from rfl, h2] at heq
    injection heq with heq
    injection heq with heqt heqm
    subst heqt
    subst heqm
    refine ⟨List.length_set t.cells _ _, ?_, ?_, ?_⟩
    · intro j hj
      exact List.get?_set_ne _ _ (fun hc => hj hc.symm)
    · exact List.get?_set_eq_of_lt _ h1len
    · intro f hf hpay
      have hilt : hs.indexOf f < hs.length := List.indexOf_lt_length.mpr hf
      rw [alignRow_get? hs _ (hs.indexOf f) hilt, List.indexOf_get hilt]
      obtain ⟨cell, hcell⟩ : ∃ c, row2.get? (hs.indexOf f) = some c := by
        have hlt2 : hs.indexOf f < row2.length := lt_of_lt_of_le hilt hlen
        rw [List.get?_eq_get hlt2]
        exact ⟨_, rfl⟩
      have hbase : fmUpdate (recordOfRow hs row2) (settings_payload req) f =
          some cell := by
        unfold fmUpdate recordOfRow
        rw [hpay, if_pos hf, hcell, Option.getD_some]
      have hM := fmSetdefault_keeps _ "goal_priorities_json" (.vDict []) cell f
        (fmSetdefault_keeps _ "default_allocations_json" (.vDict []) cell f
          (fmSetdefault_keeps _ "ppf_annual_target" (.vNum env.ppf_annual_target) cell f
            (fmSetdefault_keeps _ "risk_mode" (.vStr env.risk_mode) cell f
              (fmSetdefault_keeps _ "fiscal_year_start_month"
                  (.vNum env.fiscal_year_start_month) cell f
                (fmSetdefault_keeps _ "currency" (.vStr env.currency) cell f hbase)))))
      rw [hcell]
      simp only [alignCell, fmGet, hM, Option.getD_some]
      rw [serializeCell_scalar cell (hscal cell (List.get?_mem hcell))]

theorem update_settings_spec_witness :
    (update_settings settingsEnvW settingsTabW settingsReqW).map
      (fun p => (p.1.cells.length,
        (p.1.cells.get? 1).bind (fun r => r.get? 0))) =
      .ok (2, some (.vStr "INR")) := by
  obtain ⟨⟨p, hp⟩, hall⟩ := update_settings_spec settingsEnvW settingsTabW
    settingsReqW ["currency", "risk_mode"] [.vStr "INR", .vStr "balanced"]
    rfl rfl (by norm_num) (by decide)
  obtain ⟨hlen, -, hrow, hret⟩ := hall p.1 p.2 hp
  rw [hp]
  have hcur := hret "currency" (by decide) rfl
  have hcell : (alignRow ["currency", "risk_mode"] p.2).get? 0 =
      some (.vStr "INR") := hcur.trans rfl
  have halign : (alignRow ["currency", "risk_mode"] p.2 ++
      ([Value.vStr "INR", Value.vStr "balanced"] : List Value).drop 2).get? 0 =
      some (.vStr "INR") := by
    rw [List.get?_append (by rw [alignRow_length]; norm_num)]
    exact hcell
  show Except.ok (p.1.cells.length, (p.1.cells.get? 1).bind (fun r => r.get? 0)) =
    Except.ok (2, some (.vStr "INR"))
  rw [hrow, hlen]
  show Except.ok ((2 : Nat), (alignRow ["currency", "risk_mode"] p.2 ++
      ([Value.vStr "INR", Value.vStr "balanced"] : List Value).drop 2).get? 0) = _
  rw [halign]

/-! ## C10 — goals upsert and creation timestamps -/

theorem find?_append_some {α : Type _} (l₁ l₂ : List α) (p : α → Bool) (a : α)
    (h : l₁.find? p = some a) : (l₁ ++ l₂).find? p = some a := by
  induction l₁ with
  | nil => cases h
  | cons x xs ih =>
      rw [List.cons_append]
      by_cases hx : p x
      · rw [List.find?_cons_of_pos _ hx] at h ⊢
        exact h
      · rw [List.find?_cons_of_neg _ hx] at h ⊢
        exact ih h

theorem find?_append_none {α : Type _} (l₁ l₂ : List α) (p : α → Bool)
    (h : l₁.find? p = none) : (l₁ ++ l₂).find? p = l₂.find? p := by
  induction l₁ with
  | nil => rfl
  | cons x xs ih =>
      rw [List.cons_append]
      by_cases hx : p x
      · rw [List.find?_cons_of_pos _ hx] at h
        cases h
      · rw [List.find?_cons_of_neg _ hx] at h ⊢
        exact ih h

/-- The forward dict build of main.py:323-326 resolves a lookup to the
last row recorded under that key: later duplicate names override earlier
ones. -/
theorem goalsCreatedAtMap_foldl (rows : List FieldMap)
    (acc : String → Option Value) (k : String) :
    rows.foldl goalsStep acc k =
      match rows.reverse.find?
          (fun r => (goalRowName r == k) && (goalRowName r != "")) with
      | some r => some (goalRowCreated r)
      | none => acc k := by
  induction rows generalizing acc with
  | nil => rfl
  | cons row rest ih =>
      rw [List.foldl_cons, ih (goalsStep acc row), List.reverse_cons]
      cases hfind : rest.reverse.find?
          (fun r => (goalRowName r == k) && (goalRowName r != "")) with
      | some r' => rw [find?_append_some _ _ _ _ hfind]
      | none =>
          rw [find?_append_none _ _ _ hfind]
          by_cases hp : ((goalRowName row == k) && (goalRowName row != "")) = true
          · simp only [List.find?_singleton, if_pos hp]
            simp only [Bool.and_eq_true, beq_iff_eq, bne_iff_ne] at hp
            obtain ⟨hk, hne⟩ := hp
            simp only [goalsStep, if_pos hne, if_pos hk.symm]
          · simp only [List.find?_singleton, if_neg hp]
            simp only [Bool.and_eq_true, beq_iff_eq, bne_iff_ne, not_and_or,
              not_not] at hp
            by_cases hne : goalRowName row ≠ ""
            · have hk : k ≠ goalRowName row := by
                rcases hp with h1 | h2
                · exact fun hc => h1 hc.symm
                · exact absurd h2 hne
              simp only [goalsStep, if_pos hne, if_neg hk]
            · simp only [goalsStep, if_neg hne]

/-- For a non-empty lookup key the emptiness guard in the row filter is
redundant. -/
theorem goals_find_pred_eq (k : String) (hk : k ≠ "") :
    (fun r : FieldMap => (goalRowName r == k) && (goalRowName r != "")) =
      (fun r : FieldMap => goalRowName r == k) := by
  funext r
  by_cases h : goalRowName r = k
  · simp [h, hk]
  · simp [h]

/-- C10 (amended): in the goals upsert, the row written for an item
carries the creation timestamp of the *last* existing row whose
*trimmed* goal name equals the item's goal name *verbatim*, provided
that timestamp is non-empty; in every other case — including an item
whose name only matches after trimming — `created_at` is set to the
current time. -/
theorem upsert_goals_created_at_spec (rows : List FieldMap) (g : GoalItem)
    (now : String) (hname : g.goal_name ≠ "") :
    (∀ r0, rows.reverse.find? (fun r => goalRowName r == g.goal_name) = some r0 →
      ((goalRowCreated r0).truthy = true →
        goal_row_dict (goalsCreatedAtMap rows) g now "created_at" =
          some (goalRowCreated r0)) ∧
      ((goalRowCreated r0).truthy = false →
        goal_row_dict (goalsCreatedAtMap rows) g now "created_at" =
          some (.vStr now))) ∧
    (rows.reverse.find? (fun r => goalRowName r == g.goal_name) = none →
      goal_row_dict (goalsCreatedAtMap rows) g now "created_at" =
        some (.vStr now)) := by
  have hmap : goalsCreatedAtMap rows g.goal_name =
      match rows.reverse.find? (fun r => goalRowName r == g.goal_name) with
      | some r => some (goalRowCreated r)
      | none => none := by
    unfold goalsCreatedAtMap
    rw [goalsCreatedAtMap_foldl, ← goals_find_pred_eq g.goal_name hname]
  have hdict : goal_row_dict (goalsCreatedAtMap rows) g now "created_at" =
      some (if ((goalsCreatedAtMap rows g.goal_name).getD (.vStr "")).truthy
            then (goalsCreatedAtMap rows g.goal_name).getD (.vStr "")
            else .vStr now) := rfl
  constructor
  · intro r0 hr0
    rw [hr0] at hmap
    constructor
    · intro ht
      rw [hdict, hmap]
      simp only [Option.getD_some, ht, if_true]
    · intro hf
      rw [hdict, hmap]
      simp only [Option.getD_some, hf]
      rfl
  · intro hnone
    rw [hnone] at hmap
    rw [hdict, hmap]
    rfl

theorem upsert_goals_created_at_spec_witness :
    goal_row_dict (goalsCreatedAtMap [goalRecW]) goalItemW "NOW" "created_at" =
      some (.vStr "2024-06-01T00:00:00Z") := by
  obtain ⟨h1, -⟩ := upsert_goals_created_at_spec [goalRecW] goalItemW "NOW"
    (by decide)
  exact ((h1 goalRecW rfl).1 rfl).trans rfl

/-- C10 counterexample: an item whose trimmed goal name (`" X "` →
`"X"`) matches an existing row carrying the non-empty creation timestamp
`2020-01-01T00:00:00Z`.  The upsert does update that row (so the
trimmed-name match is real), yet the written `created_at` cell is the
current time, not the preserved timestamp — refuting the claim that any
trimmed-name match preserves `created_at`. -/
theorem upsert_goals_created_at_counterexample :
    pyStrip goalItemCex.goal_name =
      goalRowName (recordOfRow goalsHeader goalsRowCex) ∧
    goalRowCreated (recordOfRow goalsHeader goalsRowCex) =
      .vStr "2020-01-01T00:00:00Z" ∧
    (upsert_goals goalsTabCex [goalItemCex] "2026-02-01T00:00:00Z").toOption.map
        (fun p => p.2) = some [⟨"updated", some 2⟩] ∧
    (upsert_goals goalsTabCex [goalItemCex] "2026-02-01T00:00:00Z").toOption.bind
        (fun p => (p.1.cells.get? 1).bind (fun r => r.get? 8)) =
      some (.vStr "2026-02-01T00:00:00Z") ∧
    ("2026-02-01T00:00:00Z" : String) ≠ "2020-01-01T00:00:00Z" :=
  ⟨rfl, rfl, rfl, rfl, by decide⟩

end PocketPilot
